import Mathlib

/-
  Verification of the rate-limiting layer in src/handler/rate_limiter.go and of
  the protobuf container helpers in src/node/config_setting.go (Resource) and
  src/unnamed/part_000 (Task), as a shallow embedding.

  Go maps are embedded as association lists with overwrite-on-insert semantics;
  heap pointers to leakybucket.Collector values are embedded as Nat identifiers
  into an explicit heap, so pointer identity is identifier equality.
-/

/-- Association-list lookup, standing in for a Go map read. -/
def alookup {κ α : Type} [DecidableEq κ] (k : κ) : List (κ × α) → Option α
  | [] => none
  | (k2, v) :: rest => if k = k2 then some v else alookup k rest

/-- Remove every binding of a key from an association list. -/
def aerase {κ α : Type} [DecidableEq κ] (k : κ) : List (κ × α) → List (κ × α)
  | [] => []
  | (k2, v) :: rest =>
    if k2 = k then aerase k rest else (k2, v) :: aerase k rest

/-- Association-list insert with Go map assignment semantics: the new binding
shadows and removes any previous binding of the same key. -/
def ainsert {κ α : Type} [DecidableEq κ] (k : κ) (v : α) (m : List (κ × α)) :
    List (κ × α) :=
  (k, v) :: aerase k m

theorem alookup_ainsert_self {κ α : Type} [DecidableEq κ] (k : κ) (v : α)
    (m : List (κ × α)) : alookup k (ainsert k v m) = some v := by
  simp [ainsert, alookup]

theorem alookup_aerase_ne {κ α : Type} [DecidableEq κ] (k k2 : κ) (hk : k ≠ k2)
    (m : List (κ × α)) : alookup k (aerase k2 m) = alookup k m := by
  induction m with
  | nil => rfl
  | cons e rest ih =>
    obtain ⟨ke, ve⟩ := e
    by_cases he : ke = k2
    · have hne : ¬ k = ke := fun h => hk (he ▸ h)
      simp [aerase, he, alookup, ih, hne, hk]
    · by_cases hke : k = ke
      · simp [aerase, he, alookup, hke]
      · simp [aerase, he, alookup, hke, ih]

theorem alookup_ainsert_ne {κ α : Type} [DecidableEq κ] (k k2 : κ) (v : α)
    (hk : k ≠ k2) (m : List (κ × α)) :
    alookup k (ainsert k2 v m) = alookup k m := by
  simp [ainsert, alookup, hk, alookup_aerase_ne k k2 hk m]

/-- Modelled from the spec: the Budget / leaky-bucket collector of the external
leakybucket library (spec 4.1). remaining(peerKey) reports the currently
available tokens, with unseen keys at full capacity; commit deducts cost,
creating a fresh full-capacity entry for unseen keys before deduction, and
tokens may go negative when committing without a prior successful check. The
time-based replenishment is not exercised by any claim and is not modelled
(no time passes between the operations under verification). -/
structure Collector where
  rate : Int
  capacity : Int
  buckets : List (String × Int)
deriving DecidableEq

/-- Remaining tokens for a peer key: stored value, or full capacity if unseen. -/
def Collector.Remaining (c : Collector) (key : String) : Int :=
  (alookup key c.buckets).getD c.capacity

/-- Add (commit) a cost for a peer key: deduct from the remaining tokens,
creating the entry at full capacity first when the key is unseen. -/
def Collector.Add (c : Collector) (key : String) (amount : Int) : Collector :=
  { c with buckets := ainsert key (c.Remaining key - amount) c.buckets }

/-- leakybucket.NewCollector(rate, capacity, false): fresh collector, no peer
entries yet. -/
def newCollector (rate capacity : Int) : Collector :=
  { rate := rate, capacity := capacity, buckets := [] }

/-- The stream request context: only the protocol (topic) string and the remote
peer identity string are consumed by this layer (spec section 6). -/
structure RStream where
  protocol : String
  remotePeer : String
deriving DecidableEq

/-- The errors produced by the limiter: the lock-discipline error of
retrieveCollector, the unconfigured-topic error, and ErrRateLimited. -/
inductive RLError where
  | lockNotHeld
  | collectorNotExist (topic : String)
  | rateLimited
deriving DecidableEq

/-- The observable state of the RWMutex of the limiter, as queried by the
mutexasserts calls in retrieveCollector. Public operations acquire the guard
(RLock or Lock) before calling retrieveCollector and release it on return. -/
inductive LockMode where
  | unlocked
  | rlocked
  | wlocked
deriving DecidableEq

/-- The limiter: the topic-to-collector registry (limiterMap) plus an explicit
heap of collector instances addressed by pointer identity. -/
structure Limiter where
  limiterMap : List (String × Nat)
  heap : List (Nat × Collector)
deriving DecidableEq

/-- Best-effort side effects of the violation path: BadResponsesScorer
increments (by peer id, in order) and writeErrorResponseToStream rejection
writes (by stream, in order). -/
structure SideEffects where
  penalties : List String
  rejections : List RStream
deriving DecidableEq

/-- Placeholder collector for dereferencing a dangling pointer; never reached
from a well-formed limiter, where every registry value is a live heap id. -/
def defaultCollector : Collector := { rate := 0, capacity := 0, buckets := [] }

/-- Dereference a collector pointer in the heap. -/
def Limiter.deref (l : Limiter) (ptr : Nat) : Collector :=
  (alookup ptr l.heap).getD defaultCollector

/-- Write back a mutated collector through its pointer. -/
def Limiter.setCollector (l : Limiter) (ptr : Nat) (c : Collector) : Limiter :=
  { l with heap := ainsert ptr c l.heap }

/-- Dummy topic to validate all incoming rpc requests. -/
def rpcLimiterTopic : String := "rpc-limiter-topic"

def defaultBurstLimit : Int := 5

/-- retrieveCollector: errors unless the RWMutex is held in read or write mode
(the mutexasserts guard), then looks the topic up in the registry. -/
def Limiter.retrieveCollector (l : Limiter) (lock : LockMode) (topic : String) :
    Except RLError Nat :=
  if lock = LockMode.unlocked then Except.error RLError.lockNotHeld
  else
    match alookup topic l.limiterMap with
    | none => Except.error (RLError.collectorNotExist topic)
    | some ptr => Except.ok ptr

/-- topicCollector: RLock, then retrieveCollector. -/
def Limiter.topicCollector (l : Limiter) (topic : String) : Except RLError Nat :=
  l.retrieveCollector LockMode.rlocked topic

/-- uint64(r) for an int64 value r: the unsigned reinterpretation used by the
comparison amt > uint64(remaining) in validateRequest. -/
def u64 (r : Int) : Nat := (r % (2 : Int) ^ 64).toNat

/-- The body of validateRequest after the topic is read from the stream: RLock
is held; resolve the collector, read Remaining for the remote peer, normalize a
zero amount to 1, and on amt > uint64(remaining) increment the bad-responses
scorer for the remote peer, write one rejection onto the stream, and return
ErrRateLimited; otherwise return nil without touching the bucket. -/
def Limiter.validateRequestWithTopic (l : Limiter) (fx : SideEffects)
    (stream : RStream) (topic : String) (amt : Nat) :
    Except RLError Unit × SideEffects :=
  match l.retrieveCollector LockMode.rlocked topic with
  | Except.error e => (Except.error e, fx)
  | Except.ok ptr =>
    let c := l.deref ptr
    let key := stream.remotePeer
    let remaining := c.Remaining key
    let amt := if amt = 0 then 1 else amt
    if amt > u64 remaining then
      (Except.error RLError.rateLimited,
        { penalties := fx.penalties ++ [stream.remotePeer],
          rejections := fx.rejections ++ [stream] })
    else
      (Except.ok (), fx)

/-- validateRequest: the topic is the protocol string of the stream. -/
def Limiter.validateRequest (l : Limiter) (fx : SideEffects) (stream : RStream)
    (amt : Nat) : Except RLError Unit × SideEffects :=
  l.validateRequestWithTopic fx stream stream.protocol amt

/-- validateRawRpcRequest: RLock is held; the topic is the catch-all
rpcLimiterTopic, the amount is the int64 constant 1, and the comparison
amt > remaining is a signed int64 comparison (no unsigned cast). -/
def Limiter.validateRawRpcRequest (l : Limiter) (fx : SideEffects)
    (stream : RStream) : Except RLError Unit × SideEffects :=
  match l.retrieveCollector LockMode.rlocked rpcLimiterTopic with
  | Except.error e => (Except.error e, fx)
  | Except.ok ptr =>
    let c := l.deref ptr
    let key := stream.remotePeer
    let remaining := c.Remaining key
    let amt : Int := 1
    if amt > remaining then
      (Except.error RLError.rateLimited,
        { penalties := fx.penalties ++ [stream.remotePeer],
          rejections := fx.rejections ++ [stream] })
    else
      (Except.ok (), fx)

/-- add: Lock (write mode) is held; resolve the collector for the topic of the
stream; on failure log the error and return with no state change; on success
commit the amount for the remote peer. The second component is the logged
error, which Go never propagates (add returns no value). -/
def Limiter.add (l : Limiter) (stream : RStream) (amt : Int) :
    Limiter × Option RLError :=
  match l.retrieveCollector LockMode.wlocked stream.protocol with
  | Except.error e => (l, some e)
  | Except.ok ptr =>
    let key := stream.remotePeer
    (l.setCollector ptr ((l.deref ptr).Add key amt), none)

/-- addRawRStream: same as add against the catch-all topic with cost 1. -/
def Limiter.addRawStream (l : Limiter) (stream : RStream) :
    Limiter × Option RLError :=
  match l.retrieveCollector LockMode.wlocked rpcLimiterTopic with
  | Except.error e => (l, some e)
  | Except.ok ptr =>
    let key := stream.remotePeer
    (l.setCollector ptr ((l.deref ptr).Add key 1), none)

/-- The loop of free(): walk the registry entries; a collector whose pointer is
already in tempMap is skipped (its entry deleted), otherwise Collector.Free is
invoked (recorded in the returned list, in call order), the entry deleted and
the pointer marked. -/
def freeAux : List (String × Nat) → List Nat → List Nat
  | [], freed => freed
  | (_, p) :: rest, freed =>
    if p ∈ freed then freeAux rest freed
    else freeAux rest (freed ++ [p])

/-- free: Lock (write mode) held; every iteration of the loop deletes the
visited entry from the map, so the registry is empty afterwards; the second
component lists the pointers on which Collector.Free was invoked, in order. -/
def Limiter.free (l : Limiter) : Limiter × List Nat :=
  ({ l with limiterMap := [] }, freeAux l.limiterMap [])

/-- Modelled from the spec: the rpc topic identifiers of the p2p package
(goodbye, metadata, ping, status, blocks-by-range) are external to the sources
under review; their concrete values are irrelevant, only their identity as
registry keys matters. -/
def RPCGoodByeTopic : String := "/carrier/req/goodbye/1"

def RPCMetaDataTopic : String := "/carrier/req/metadata/1"

def RPCPingTopic : String := "/carrier/req/ping/1"

def RPCStatusTopic : String := "/carrier/req/status/1"

def RPCBlocksByRangeTopic : String := "/carrier/req/blocks_by_range/1"

/-- newRateLimiter: builds the registry. sfx is the encoding protocol suffix
appended by addEncoding. Heap ids 0..5 are the six distinct collectors
allocated, in allocation order; id 4 is the single blockCollector used for
range requests, id 5 the catch-all collector registered last under
rpcLimiterTopic. -/
def newRateLimiter (sfx : String) : Limiter :=
  let addEncoding := fun (t : String) => t ++ sfx
  let heap : List (Nat × Collector) :=
    [ (0, newCollector 1 1),
      (1, newCollector 1 defaultBurstLimit),
      (2, newCollector 1 defaultBurstLimit),
      (3, newCollector 1 defaultBurstLimit),
      (4, newCollector 1 (defaultBurstLimit * 20)),
      (5, newCollector 5 (defaultBurstLimit * 2)) ]
  let m1 := ainsert (addEncoding RPCGoodByeTopic) 0 []
  let m2 := ainsert (addEncoding RPCMetaDataTopic) 1 m1
  let m3 := ainsert (addEncoding RPCPingTopic) 2 m2
  let m4 := ainsert (addEncoding RPCStatusTopic) 3 m3
  let m5 := ainsert (addEncoding RPCBlocksByRangeTopic) 4 m4
  let m6 := ainsert rpcLimiterTopic 5 m5
  { limiterMap := m6, heap := heap }

namespace types

/-- The outcome of the external protobuf Marshal call on the wrapped data:
the byte slice and the error value (none embeds the Go nil error). Both are
returned together, as in Go. -/
structure MarshalResult where
  bytes : List Nat
  err : Option String
deriving DecidableEq

/-- Resource.EncodePb from src/node/config_setting.go: marshal the data, and
write the bytes to the writer when err is non-nil; return err. The writer is
embedded as the list of bytes written so far; the result is the writer state
after the call and the returned error. -/
def Resource.EncodePb (m : MarshalResult) (w : List Nat) :
    List Nat × Option String :=
  match m.err with
  | some e => (w ++ m.bytes, some e)
  | none => (w, none)

/-- Task.EncodePb from src/unnamed/part_000: marshal the data (a nil data
pointer is first replaced by a fresh empty value, which only changes what
Marshal is applied to, not the write/err pairing below), and write the bytes
to the writer when err is nil; return err. -/
def Task.EncodePb (m : MarshalResult) (w : List Nat) :
    List Nat × Option String :=
  match m.err with
  | none => (w ++ m.bytes, none)
  | some e => (w, some e)

/-- Opaque stand-in for libTypes.ResourceData. -/
structure ResourceData where
  payload : List Nat
deriving DecidableEq

/-- Resource wraps a possibly-nil pointer to its data. -/
structure Resource where
  data : Option ResourceData
deriving DecidableEq

/-- Opaque stand-in for libTypes.TaskData. -/
structure TaskData where
  payload : List Nat
deriving DecidableEq

/-- Task wraps a possibly-nil pointer to its data. -/
structure Task where
  data : Option TaskData
deriving DecidableEq

/-- ResourceArray.To from src/node/config_setting.go:
arr := make of length s.Len() (nil pointers), then append v.data for each
element of s onto arr. -/
def ResourceArray.To (s : List Resource) : List (Option ResourceData) :=
  s.foldl (fun arr v => arr ++ [v.data]) (List.replicate s.length none)

/-- TaskDataArray.To from src/unnamed/part_000:
arr := make of length 0 and capacity s.Len(), then append v.data for each
element of s onto arr. -/
def TaskDataArray.To (s : List Task) : List (Option TaskData) :=
  s.foldl (fun arr v => arr ++ [v.data]) []

end types

theorem foldl_append_data {α β : Type} (f : α → β) (s : List α) (init : List β) :
    s.foldl (fun arr v => arr ++ [f v]) init = init ++ s.map f := by
  induction s generalizing init with
  | nil => simp
  | cons a rest ih => simp [List.foldl, ih]

/-- freeAux accumulates, in order, the pointers freed so far; a pointer is in
the final list iff it was already freed or occurs as a registry value. -/
theorem mem_freeAux (m : List (String × Nat)) :
    ∀ (acc : List Nat) (p : Nat),
      p ∈ freeAux m acc ↔ p ∈ acc ∨ p ∈ m.map Prod.snd := by
  induction m with
  | nil => intro acc p; simp [freeAux]
  | cons e rest ih =>
    intro acc p
    obtain ⟨t, q⟩ := e
    by_cases hq : q ∈ acc
    · simp only [freeAux, if_pos hq, ih, List.map_cons, List.mem_cons]
      constructor
      · rintro (h | h)
        · exact Or.inl h
        · exact Or.inr (Or.inr h)
      · rintro (h | h | h)
        · exact Or.inl h
        · exact Or.inl (h ▸ hq)
        · exact Or.inr h
    · simp only [freeAux, if_neg hq, ih, List.map_cons, List.mem_cons,
        List.mem_append, List.mem_singleton]
      tauto

/-- freeAux never records the same pointer twice. -/
theorem nodup_freeAux (m : List (String × Nat)) :
    ∀ (acc : List Nat), acc.Nodup → (freeAux m acc).Nodup := by
  induction m with
  | nil => intro acc h; exact h
  | cons e rest ih =>
    intro acc hacc
    obtain ⟨t, q⟩ := e
    by_cases hq : q ∈ acc
    · simpa [freeAux, if_pos hq] using ih acc hacc
    · have : (acc ++ [q]).Nodup := by
        simp [List.nodup_append, hacc, hq]
      simpa [freeAux, if_neg hq] using ih (acc ++ [q]) this

theorem retrieveCollector_locked_ne_lockErr (l : Limiter) (lock : LockMode)
    (hl : lock ≠ LockMode.unlocked) (t : String) :
    l.retrieveCollector lock t ≠ Except.error RLError.lockNotHeld := by
  unfold Limiter.retrieveCollector
  rw [if_neg hl]
  cases alookup t l.limiterMap <;> simp

theorem topicCollector_ok_iff (l : Limiter) (t : String) (p : Nat) :
    l.topicCollector t = Except.ok p ↔ alookup t l.limiterMap = some p := by
  unfold Limiter.topicCollector Limiter.retrieveCollector
  rw [if_neg (fun h => LockMode.noConfusion h)]
  cases alookup t l.limiterMap <;> simp

/-- C1: free() invokes Collector.Free exactly once per distinct collector
instance, deduplicating aliases by pointer identity rather than by topic key
(count of each pointer in the freed list is 1 when it occurs as a registry
value, 0 otherwise), and the registry map holds no entries afterwards. -/
theorem free_disposes_each_distinct_collector_once (l : Limiter) :
    (l.free.1.limiterMap = []) ∧
    ∀ p : Nat, l.free.2.count p =
      if p ∈ l.limiterMap.map Prod.snd then 1 else 0 := by
  constructor
  · rfl
  · intro p
    have hnd : (freeAux l.limiterMap []).Nodup :=
      nodup_freeAux l.limiterMap [] List.nodup_nil
    have hmem : p ∈ freeAux l.limiterMap [] ↔ p ∈ l.limiterMap.map Prod.snd := by
      simpa using mem_freeAux l.limiterMap [] p
    by_cases hp : p ∈ l.limiterMap.map Prod.snd
    · simp only [Limiter.free, if_pos hp]
      exact List.count_eq_one_of_mem hnd (hmem.mpr hp)
    · simp only [Limiter.free, if_neg hp]
      exact List.count_eq_zero_of_not_mem (fun h => hp (hmem.mp h))

/-- C3: retrieveCollector invoked without the guard held returns the
lock-discipline error (never a collector), and every public operation of the
limiter acquires the guard before calling it, so no public operation can
produce or log the lock-discipline error. -/
theorem lock_discipline_error_unreachable_publicly
    (l : Limiter) (t : String) (s : RStream) (fx : SideEffects)
    (amt : Nat) (amtI : Int) :
    l.retrieveCollector LockMode.unlocked t = Except.error RLError.lockNotHeld
    ∧ l.topicCollector t ≠ Except.error RLError.lockNotHeld
    ∧ (l.validateRequest fx s amt).1 ≠ Except.error RLError.lockNotHeld
    ∧ (l.validateRawRpcRequest fx s).1 ≠ Except.error RLError.lockNotHeld
    ∧ (l.add s amtI).2 ≠ some RLError.lockNotHeld
    ∧ (l.addRawStream s).2 ≠ some RLError.lockNotHeld := by
  refine ⟨rfl, retrieveCollector_locked_ne_lockErr l _ (by simp) t, ?_, ?_, ?_, ?_⟩
  · unfold Limiter.validateRequest Limiter.validateRequestWithTopic
      Limiter.retrieveCollector
    rw [if_neg (fun h => LockMode.noConfusion h)]
    cases alookup s.protocol l.limiterMap
    · simp
    · dsimp only
      split <;> split <;> simp
  · unfold Limiter.validateRawRpcRequest Limiter.retrieveCollector
    rw [if_neg (fun h => LockMode.noConfusion h)]
    cases alookup rpcLimiterTopic l.limiterMap
    · simp
    · dsimp only
      split <;> simp
  · unfold Limiter.add Limiter.retrieveCollector
    rw [if_neg (fun h => LockMode.noConfusion h)]
    cases alookup s.protocol l.limiterMap <;> simp
  · unfold Limiter.addRawStream Limiter.retrieveCollector
    rw [if_neg (fun h => LockMode.noConfusion h)]
    cases alookup rpcLimiterTopic l.limiterMap <;> simp

/-- C6: validateRequest with a declared amount of 0 produces the same result
and the same side effects as with a declared amount of 1, for every limiter
state, prior side-effect log and stream. -/
theorem zero_amount_equals_one (l : Limiter) (fx : SideEffects) (s : RStream) :
    l.validateRequest fx s 0 = l.validateRequest fx s 1 := rfl

/-- C9: Resource.EncodePb writes the marshaled bytes to the writer exactly when
Marshal returns a non-nil error and returns that error; on success nothing is
written and nil is returned — the inverse of Task.EncodePb, which writes
exactly when Marshal succeeds. -/
theorem resource_encodePb_writes_iff_marshal_errs
    (m : types.MarshalResult) (w : List Nat) :
    (types.Resource.EncodePb m w =
      if m.err = none then (w, none) else (w ++ m.bytes, m.err)) ∧
    (types.Task.EncodePb m w =
      if m.err = none then (w ++ m.bytes, none) else (w, m.err)) := by
  cases h : m.err <;> simp [types.Resource.EncodePb, types.Task.EncodePb, h]

/-- C10: ResourceArray.To returns a slice of length twice the length of s whose
first Len(s) elements are nil pointers, followed by the data pointers of s,
whereas TaskDataArray.To returns exactly Len(s) elements. -/
theorem resourceArray_to_prepends_nils
    (s : List types.Resource) (t : List types.Task) :
    (types.ResourceArray.To s).length = 2 * s.length
    ∧ (types.ResourceArray.To s).take s.length = List.replicate s.length none
    ∧ (types.ResourceArray.To s).drop s.length = s.map (fun v => v.data)
    ∧ (types.TaskDataArray.To t).length = t.length := by
  have hr : types.ResourceArray.To s =
      List.replicate s.length none ++ s.map (fun v => v.data) := by
    unfold types.ResourceArray.To
    exact foldl_append_data (fun v => v.data) s (List.replicate s.length none)
  have ht : types.TaskDataArray.To t = t.map (fun v => v.data) := by
    unfold types.TaskDataArray.To
    simpa using foldl_append_data (fun v => v.data) t []
  refine ⟨?_, ?_, ?_, ?_⟩
  · rw [hr]; simp [two_mul]
  · rw [hr]; simp
  · rw [hr]; simp
  · rw [ht]; simp

/-- C2: two distinct topic keys resolved to the same collector instance share a
single consumption pool: committing a positive cost through one key strictly
reduces the remaining tokens observed for the same peer through the other key;
moreover in the registry built by newRateLimiter the range-request topic
resolves to the dedicated shared block collector (heap id 4), whose capacity is
the large defaultBurstLimit * 20. -/
theorem aliased_topics_share_consumption_pool
    (l : Limiter) (t1 t2 : String) (p : Nat) (s : RStream) (amt : Int)
    (sfx : String)
    (h1 : l.topicCollector t1 = Except.ok p)
    (h2 : l.topicCollector t2 = Except.ok p)
    (ht : t1 ≠ t2)
    (hs : s.protocol = t1)
    (hamt : 0 < amt)
    (hsep : RPCBlocksByRangeTopic ++ sfx ≠ rpcLimiterTopic) :
    ((l.add s amt).1.topicCollector t2 = Except.ok p
      ∧ ((l.add s amt).1.deref p).Remaining s.remotePeer
          < (l.deref p).Remaining s.remotePeer)
    ∧ (newRateLimiter sfx).topicCollector (RPCBlocksByRangeTopic ++ sfx)
        = Except.ok 4
    ∧ ((newRateLimiter sfx).deref 4).capacity = defaultBurstLimit * 20 := by
  have halk1 : alookup t1 l.limiterMap = some p :=
    (topicCollector_ok_iff l t1 p).1 h1
  have halk2 : alookup t2 l.limiterMap = some p :=
    (topicCollector_ok_iff l t2 p).1 h2
  have hadd : l.add s amt =
      (l.setCollector p ((l.deref p).Add s.remotePeer amt), none) := by
    unfold Limiter.add Limiter.retrieveCollector
    rw [if_neg (fun h => LockMode.noConfusion h), hs, halk1]
  refine ⟨⟨?_, ?_⟩, ?_, ?_⟩
  · rw [hadd]
    exact (topicCollector_ok_iff _ t2 p).2 (by simpa [Limiter.setCollector]
      using halk2)
  · rw [hadd]
    have hderef : (l.setCollector p ((l.deref p).Add s.remotePeer amt)).deref p
        = (l.deref p).Add s.remotePeer amt := by
      simp [Limiter.setCollector, Limiter.deref, alookup_ainsert_self]
    rw [hderef]
    unfold Collector.Add Collector.Remaining
    dsimp only
    rw [alookup_ainsert_self]
    dsimp only [Option.getD]
    omega
  · apply (topicCollector_ok_iff _ _ _).2
    unfold newRateLimiter
    dsimp only
    rw [alookup_ainsert_ne _ _ _ hsep, alookup_ainsert_self]
  · simp [newRateLimiter, Limiter.deref, alookup, newCollector]

def c2l : Limiter :=
  { limiterMap := [("topic-a", 0), ("topic-b", 0)],
    heap := [(0, newCollector 1 5)] }

theorem aliased_topics_share_consumption_pool_witness :
    c2l.topicCollector "topic-a" = Except.ok 0
    ∧ c2l.topicCollector "topic-b" = Except.ok 0
    ∧ "topic-a" ≠ "topic-b"
    ∧ (0 : Int) < 1
    ∧ RPCBlocksByRangeTopic ++ "" ≠ rpcLimiterTopic
    ∧ (((c2l.add { protocol := "topic-a", remotePeer := "P" } 1).1.topicCollector
          "topic-b" = Except.ok 0
        ∧ ((c2l.add { protocol := "topic-a", remotePeer := "P" } 1).1.deref
            0).Remaining "P" < (c2l.deref 0).Remaining "P")
      ∧ (newRateLimiter "").topicCollector (RPCBlocksByRangeTopic ++ "")
          = Except.ok 4
      ∧ ((newRateLimiter "").deref 4).capacity = defaultBurstLimit * 20) :=
  ⟨rfl, rfl, by decide, by decide, by decide,
    aliased_topics_share_consumption_pool c2l "topic-a" "topic-b" 0
      { protocol := "topic-a", remotePeer := "P" } 1 "" rfl rfl (by decide) rfl
      (by decide) (by decide)⟩

/-- C4: for a stream with a registered topic and a peer whose remaining token
balance is a genuine (nonnegative, int64-range) count, validateRequest rejects
exactly when the effective declared amount (0 normalized to 1) exceeds the
remaining tokens, and in that case appends exactly one penalty increment for
the remote peer of the stream and exactly one rejection write onto the stream
before returning ErrRateLimited; otherwise it returns nil with no side
effects. -/
theorem validateRequest_reject_side_effects
    (l : Limiter) (fx : SideEffects) (s : RStream) (amt : Nat) (p : Nat)
    (hres : l.retrieveCollector LockMode.rlocked s.protocol = Except.ok p)
    (h0 : 0 ≤ (l.deref p).Remaining s.remotePeer)
    (hB : (l.deref p).Remaining s.remotePeer < 2 ^ 64) :
    l.validateRequest fx s amt =
      if (if amt = 0 then 1 else amt) > ((l.deref p).Remaining s.remotePeer).toNat
      then (Except.error RLError.rateLimited,
            { penalties := fx.penalties ++ [s.remotePeer],
              rejections := fx.rejections ++ [s] })
      else (Except.ok (), fx) := by
  unfold Limiter.validateRequest Limiter.validateRequestWithTopic
  rw [hres]
  dsimp only
  have hu : u64 ((l.deref p).Remaining s.remotePeer)
      = ((l.deref p).Remaining s.remotePeer).toNat := by
    unfold u64
    rw [Int.emod_eq_of_lt h0 hB]
  rw [hu]

def c4l : Limiter :=
  { limiterMap := [("topic-a", 0)], heap := [(0, newCollector 1 5)] }

theorem validateRequest_reject_side_effects_witness :
    c4l.retrieveCollector LockMode.rlocked "topic-a" = Except.ok 0
    ∧ 0 ≤ (c4l.deref 0).Remaining "P"
    ∧ (c4l.deref 0).Remaining "P" < 2 ^ 64
    ∧ c4l.validateRequest { penalties := [], rejections := [] }
        { protocol := "topic-a", remotePeer := "P" } 7 =
      (if (if (7 : Nat) = 0 then 1 else 7) > ((c4l.deref 0).Remaining "P").toNat
       then (Except.error RLError.rateLimited,
             { penalties := [] ++ ["P"],
               rejections := [] ++ [{ protocol := "topic-a", remotePeer := "P" }] })
       else (Except.ok (), { penalties := [], rejections := [] })) :=
  ⟨rfl, by decide, by decide,
    validateRequest_reject_side_effects c4l { penalties := [], rejections := [] }
      { protocol := "topic-a", remotePeer := "P" } 7 0 rfl (by decide) (by decide)⟩

/-- The registry state exhibiting the C5 divergence: the catch-all collector
holds a negative token balance for peer P, a state the Budget contract allows
after committing without a prior successful check (spec 4.1). -/
def c5l : Limiter :=
  { limiterMap := [(rpcLimiterTopic, 0)],
    heap := [(0, { rate := 5, capacity := 10, buckets := [("P", -1)] })] }

/-- C5 counterexample: at a negative remaining balance the two checks are not
identical: validateRawRpcRequest rejects (signed int64 comparison 1 > -1)
while validateRequest specialized to the catch-all topic with amount 1 accepts
(its comparison casts the remaining value to uint64, and 1 > uint64(-1) is
false), so the claimed equivalence fails at this concrete input. -/
theorem raw_check_differs_from_specialized_check :
    c5l.validateRawRpcRequest { penalties := [], rejections := [] }
        { protocol := "other-topic", remotePeer := "P" }
      ≠ c5l.validateRequestWithTopic { penalties := [], rejections := [] }
        { protocol := "other-topic", remotePeer := "P" } rpcLimiterTopic 1 := by
  intro h
  have h1 : (c5l.validateRawRpcRequest { penalties := [], rejections := [] }
      { protocol := "other-topic", remotePeer := "P" }).1
      = Except.error RLError.rateLimited := rfl
  have h2 : (c5l.validateRequestWithTopic { penalties := [], rejections := [] }
      { protocol := "other-topic", remotePeer := "P" } rpcLimiterTopic 1).1
      = Except.ok () := rfl
  rw [h, h2] at h1
  exact Except.noConfusion h1

/-- C5 amended: validateRawRpcRequest behaves identically to validateRequest
specialized to the catch-all topic with a fixed cost of 1 whenever the
remaining balance the catch-all collector reports for the peer of the stream
is nonnegative and within int64 range (as is the case for every balance the
real leaky bucket maintains); the unsigned cast in validateRequest makes the
two checks diverge only on negative balances. -/
theorem raw_check_equals_specialized_check_nonneg
    (l : Limiter) (fx : SideEffects) (s : RStream) (p : Nat)
    (hres : l.retrieveCollector LockMode.rlocked rpcLimiterTopic = Except.ok p)
    (h0 : 0 ≤ (l.deref p).Remaining s.remotePeer)
    (hB : (l.deref p).Remaining s.remotePeer < 2 ^ 64) :
    l.validateRawRpcRequest fx s
      = l.validateRequestWithTopic fx s rpcLimiterTopic 1 := by
  unfold Limiter.validateRawRpcRequest Limiter.validateRequestWithTopic
  rw [hres]
  dsimp only
  have hu : u64 ((l.deref p).Remaining s.remotePeer)
      = ((l.deref p).Remaining s.remotePeer).toNat := by
    unfold u64
    rw [Int.emod_eq_of_lt h0 hB]
  rw [hu]
  have h1 : (if (1 : Nat) = 0 then 1 else 1) = (1 : Nat) := rfl
  rw [h1]
  by_cases hz : (l.deref p).Remaining s.remotePeer = 0
  · have ha : (1 : Int) > (l.deref p).Remaining s.remotePeer := by omega
    have hb : 1 > ((l.deref p).Remaining s.remotePeer).toNat := by omega
    rw [if_pos ha, if_pos hb]
  · have ha : ¬ ((1 : Int) > (l.deref p).Remaining s.remotePeer) := by omega
    have hb : ¬ (1 > ((l.deref p).Remaining s.remotePeer).toNat) := by omega
    rw [if_neg ha, if_neg hb]

def c5w : Limiter :=
  { limiterMap := [(rpcLimiterTopic, 0)], heap := [(0, newCollector 5 10)] }

theorem raw_check_equals_specialized_check_nonneg_witness :
    c5w.retrieveCollector LockMode.rlocked rpcLimiterTopic = Except.ok 0
    ∧ 0 ≤ (c5w.deref 0).Remaining "P"
    ∧ (c5w.deref 0).Remaining "P" < 2 ^ 64
    ∧ c5w.validateRawRpcRequest { penalties := [], rejections := [] }
        { protocol := "other-topic", remotePeer := "P" }
      = c5w.validateRequestWithTopic { penalties := [], rejections := [] }
        { protocol := "other-topic", remotePeer := "P" } rpcLimiterTopic 1 :=
  ⟨rfl, by decide, by decide,
    raw_check_equals_specialized_check_nonneg c5w
      { penalties := [], rejections := [] }
      { protocol := "other-topic", remotePeer := "P" } 0 rfl (by decide)
      (by decide)⟩

/-- C7: on a stream whose topic has no registry entry, add merely logs the
resolution error and returns with the limiter state unchanged (nothing is
propagated to the caller), while validateRequest returns the
collector-does-not-exist error to the caller; likewise validateRawRpcRequest
errors to the caller when the catch-all topic is absent. -/
theorem unregistered_topic_commit_silent_check_errors
    (l : Limiter) (fx : SideEffects) (s : RStream) (amt : Nat) (amtI : Int)
    (h : alookup s.protocol l.limiterMap = none)
    (hraw : alookup rpcLimiterTopic l.limiterMap = none) :
    l.add s amtI = (l, some (RLError.collectorNotExist s.protocol))
    ∧ l.validateRequest fx s amt
        = (Except.error (RLError.collectorNotExist s.protocol), fx)
    ∧ l.validateRawRpcRequest fx s
        = (Except.error (RLError.collectorNotExist rpcLimiterTopic), fx) := by
  refine ⟨?_, ?_, ?_⟩
  · unfold Limiter.add Limiter.retrieveCollector
    rw [if_neg (fun hh => LockMode.noConfusion hh), h]
  · unfold Limiter.validateRequest Limiter.validateRequestWithTopic
      Limiter.retrieveCollector
    rw [if_neg (fun hh => LockMode.noConfusion hh), h]
  · unfold Limiter.validateRawRpcRequest Limiter.retrieveCollector
    rw [if_neg (fun hh => LockMode.noConfusion hh), hraw]

def c7l : Limiter := { limiterMap := [], heap := [] }

theorem unregistered_topic_commit_silent_check_errors_witness :
    alookup "topic-x" c7l.limiterMap = none
    ∧ alookup rpcLimiterTopic c7l.limiterMap = none
    ∧ (c7l.add { protocol := "topic-x", remotePeer := "Q" } 2
        = (c7l, some (RLError.collectorNotExist "topic-x"))
      ∧ c7l.validateRequest { penalties := [], rejections := [] }
          { protocol := "topic-x", remotePeer := "Q" } 3
        = (Except.error (RLError.collectorNotExist "topic-x"),
            { penalties := [], rejections := [] })
      ∧ c7l.validateRawRpcRequest { penalties := [], rejections := [] }
          { protocol := "topic-x", remotePeer := "Q" }
        = (Except.error (RLError.collectorNotExist rpcLimiterTopic),
            { penalties := [], rejections := [] })) :=
  ⟨rfl, rfl,
    unregistered_topic_commit_silent_check_errors c7l
      { penalties := [], rejections := [] }
      { protocol := "topic-x", remotePeer := "Q" } 3 2 rfl rfl⟩

theorem newRateLimiter_catchall_lookup (sfx : String) :
    alookup rpcLimiterTopic (newRateLimiter sfx).limiterMap = some 5 := by
  unfold newRateLimiter
  dsimp only
  exact alookup_ainsert_self rpcLimiterTopic 5 _

/-- C8: in any limiter built by newRateLimiter the catch-all topic is present
in the registry (registered last, it can never be displaced), so the
unconfigured-topic branch of validateRawRpcRequest and addRawStream is
unreachable: the raw check only ever returns nil or ErrRateLimited, and the
raw commit never logs a resolution error. -/
theorem general_gate_never_internal_error
    (sfx : String) (fx : SideEffects) (s : RStream) :
    alookup rpcLimiterTopic (newRateLimiter sfx).limiterMap = some 5
    ∧ (((newRateLimiter sfx).validateRawRpcRequest fx s).1 = Except.ok ()
      ∨ ((newRateLimiter sfx).validateRawRpcRequest fx s).1
          = Except.error RLError.rateLimited)
    ∧ ((newRateLimiter sfx).addRawStream s).2 = none := by
  refine ⟨newRateLimiter_catchall_lookup sfx, ?_, ?_⟩
  · unfold Limiter.validateRawRpcRequest Limiter.retrieveCollector
    rw [if_neg (fun h => LockMode.noConfusion h), newRateLimiter_catchall_lookup]
    dsimp only
    split
    · exact Or.inr rfl
    · exact Or.inl rfl
  · unfold Limiter.addRawStream Limiter.retrieveCollector
    rw [if_neg (fun h => LockMode.noConfusion h), newRateLimiter_catchall_lookup]
